import Mathlib

/-!
# UTXO transaction explainer — verified model

A shallow embedding of the transaction-explainer API route
(`GET /api/tx/[txid]`) of the utxo-transaction-visualizer repository,
together with proofs about identifier validation, input resolution,
fee derivation and the change-output heuristic.

Upstream (Esplora-compatible) HTTP reads are modelled as an `Upstream`
record of oracles; a fetch that fails (non-ok status or network error,
which the route's `fetchJson`/`fetchText` turn into a thrown exception)
is modelled as `none`.  JavaScript numbers holding satoshi values are
modelled as `Int`; optional JSON fields as `Option`.
-/

/-- One raw input of a transaction as served by the upstream API
(`BlockstreamTx.vin` element).  The optional `is_coinbase` flag is only
ever read through JavaScript truthiness coercion (`!!` and `?:`), under
which a missing field behaves exactly as `false`, so it is modelled as
a plain `Bool`. -/
structure Vin where
  txid : String
  vout : Nat
  is_coinbase : Bool
deriving DecidableEq, Repr

/-- One raw output of a transaction as served by the upstream API
(`BlockstreamTx.vout` element). -/
structure Vout where
  value : Int
  scriptpubkey_address : Option String
  scriptpubkey_type : Option String
deriving DecidableEq, Repr

/-- Confirmation status of a transaction as served by the upstream API. -/
structure TxStatus where
  confirmed : Bool
  block_height : Option Int
  block_hash : Option String
  block_time : Option Int
deriving DecidableEq, Repr

/-- A transaction as served by the upstream API (the route's
`BlockstreamTx` type).  `fee` is read with `??`, so it is optional. -/
structure BlockstreamTx where
  txid : String
  fee : Option Int
  version : Int
  locktime : Int
  size : Int
  weight : Int
  vin : List Vin
  vout : List Vout
  status : TxStatus
deriving DecidableEq, Repr

/-- One element of the `/tx/{txid}/outspends` response. -/
structure Outspend where
  spent : Bool
deriving DecidableEq, Repr

/-- An input enriched with data copied from the previous output it
spends (the repository's `EnrichedInput`). -/
structure EnrichedInput where
  txid : String
  vout : Nat
  value : Int
  address : Option String
  scriptType : Option String
  isCoinbase : Bool
deriving DecidableEq, Repr

/-- An output enriched with its own index and spent flag (the
repository's `EnrichedOutput`). -/
structure EnrichedOutput where
  txid : String
  vout : Nat
  value : Int
  address : Option String
  scriptType : Option String
  spent : Bool
deriving DecidableEq, Repr

/-- Status block of the route's response. -/
structure StatusOut where
  confirmed : Bool
  blockHeight : Option Int
  blockHash : Option String
  blockTime : Option Int
deriving DecidableEq, Repr

/-- Structural details block of the route's response. -/
structure TxDetails where
  version : Int
  locktime : Int
  size : Int
  weight : Int
  vinCount : Nat
  voutCount : Nat
deriving DecidableEq, Repr

/-- The route's success payload (the repository's `TxExplainerResponse`). -/
structure TxExplainerResponse where
  txid : String
  fee : Int
  totalInput : Int
  totalOutput : Int
  inputs : List EnrichedInput
  outputs : List EnrichedOutput
  status : StatusOut
  details : TxDetails
  rawHex : String
  changeOutputIndex : Option Nat
deriving DecidableEq, Repr

/-- The route's overall result: a JSON body with HTTP status 200, or an
error body with an explicit HTTP status (400 or 502). -/
inductive ApiResponse where
  | ok (body : TxExplainerResponse)
  | error (status : Nat) (message : String)
deriving DecidableEq, Repr

/-- Models JavaScript `String.prototype.trim`: drop leading and
trailing whitespace characters. -/
def jsTrim (s : String) : String :=
  ⟨((s.data.dropWhile Char.isWhitespace).reverse.dropWhile Char.isWhitespace).reverse⟩

/-- One character of the regex class `[0-9a-fA-F]`. -/
def isHexChar (c : Char) : Bool :=
  (decide ('0' ≤ c) && decide (c ≤ '9')) ||
  (decide ('a' ≤ c) && decide (c ≤ 'f')) ||
  (decide ('A' ≤ c) && decide (c ≤ 'F'))

/-- The route's validation regex `/^[0-9a-fA-F]{64}$/`. -/
def isValidTxid (s : String) : Bool :=
  s.length == 64 && s.data.all isHexChar

/-- The dust threshold of the change heuristic (`DUST_THRESHOLD`), in sats. -/
def DUST_THRESHOLD : Int := 1000

/-- Models `satsFromOutputs`: sum of the `value` fields of raw outputs. -/
def satsFromOutputs (outputs : List Vout) : Int :=
  outputs.foldl (fun sum o => sum + o.value) 0

/-- An output paired with its original index, as built by
`outputs.map((o, idx) => ({ o, idx }))` inside the heuristic. -/
structure Cand where
  o : EnrichedOutput
  idx : Nat
deriving DecidableEq, Repr

/-- The set of input addresses the heuristic builds
(`new Set(inputs.map(i => i.address).filter(a => !!a))`), as a list;
membership in the JavaScript `Set` is list membership here. -/
def inputAddressList (inputs : List EnrichedInput) : List String :=
  (inputs.map (·.address)).filterMap
    (fun a => match a with
      | some s => if s = "" then none else some s
      | none => none)

/-- The filter callback `({ o }) => o.address && inputAddresses.has(o.address)`:
the output's address is truthy and occurs in the input-address set. -/
def matchesInputAddress (inputAddresses : List String) (c : Cand) : Bool :=
  match c.o.address with
  | some a => decide (a ≠ "") && inputAddresses.contains a
  | none => false

/-- Models the indexing step `outputs.map((o, idx) => ({ o, idx }))`. -/
def indexedOutputs (outputs : List EnrichedOutput) : List Cand :=
  outputs.enum.map (fun p => Cand.mk p.2 p.1)

/-- The filter callback `({ o }) => o.value > DUST_THRESHOLD`. -/
def isNonDust (c : Cand) : Bool :=
  decide (DUST_THRESHOLD < c.o.value)

/-- One step of a stable insertion sort by ascending `o.value`:
insert `c` in front of the first element whose value is ≥ its own, so
that `c` lands after every earlier element of equal value. -/
def insertByValue (c : Cand) : List Cand → List Cand
  | [] => [c]
  | d :: rest =>
    if c.o.value ≤ d.o.value then c :: d :: rest
    else d :: insertByValue c rest

/-- Models `base.sort((a, b) => a.o.value - b.o.value)`.  JavaScript
`Array.prototype.sort` is stable, and with this comparator it orders by
ascending `o.value`; a stable insertion sort computes exactly that
permutation (`stableSortByValue_eq_mergeSort` below identifies it with
the stable `List.mergeSort` on the same ordering). -/
def stableSortByValue : List Cand → List Cand
  | [] => []
  | c :: rest => insertByValue c (stableSortByValue rest)

/-- The repository's `guessChangeOutputIndex`. -/
def guessChangeOutputIndex (inputs : List EnrichedInput)
    (outputs : List EnrichedOutput) : Option Nat :=
  if outputs.length < 2 then none
  else
    let inputAddresses := inputAddressList inputs
    let indexed := indexedOutputs outputs
    let withMatch := indexed.filter (matchesInputAddress inputAddresses)
    let candidates := if withMatch.isEmpty then indexed else withMatch
    let nonDust := candidates.filter isNonDust
    let base := if nonDust.length > 0 then nonDust else candidates
    let sorted := stableSortByValue base
    sorted.head?.map (·.idx)

/-- The upstream Esplora-compatible API, as oracles: `none` models a
failed fetch (non-ok status or network error, thrown by
`fetchJson`/`fetchText`). -/
structure Upstream where
  getTx : String → Option BlockstreamTx
  getHex : String → Option String
  getOutspends : String → Option (List Outspend)

/-- The `Promise.all` over `tx.vin.map(vin => vin.is_coinbase ? null :
fetchJson(...))`: each coinbase slot resolves to `null` without a
fetch; any failing ancestor fetch rejects the whole join. -/
def resolvePrevTxs (u : Upstream) (vins : List Vin) :
    Option (List (Option BlockstreamTx)) :=
  vins.mapM (fun vin =>
    if vin.is_coinbase then some none
    else (u.getTx vin.txid).map some)

/-- Enrichment of a single input from its (possibly absent) ancestor
transaction: `prevOut = prevTx ? prevTx.vout[vin.vout] : undefined`,
then `value ?? 0`, `address ?? null`, `scriptType ?? null`. -/
def enrichInput (vin : Vin) (prevTx : Option BlockstreamTx) : EnrichedInput :=
  let prevOut := match prevTx with
    | some ptx => ptx.vout[vin.vout]?
    | none => none
  { txid := vin.txid
    vout := vin.vout
    value := (prevOut.map (·.value)).getD 0
    address := prevOut.bind (·.scriptpubkey_address)
    scriptType := prevOut.bind (·.scriptpubkey_type)
    isCoinbase := vin.is_coinbase }

/-- Models `tx.vin.map((vin, index) => ...)` with `prevTxs[index]` looked up
by position (an out-of-range lookup is `undefined`, which behaves as
`null`). -/
def enrichInputs (vins : List Vin) (prevTxs : List (Option BlockstreamTx)) :
    List EnrichedInput :=
  vins.enum.map (fun p => enrichInput p.2 (prevTxs[p.1]?.getD none))

/-- Models `tx.vout.map((vout, index) => ...)` with the spent flag from
`outspends[index]?.spent ?? false`. -/
def enrichOutputs (txid : String) (vouts : List Vout)
    (outspends : List Outspend) : List EnrichedOutput :=
  vouts.enum.map (fun p =>
    { txid := txid
      vout := p.1
      value := p.2.value
      address := p.2.scriptpubkey_address
      scriptType := p.2.scriptpubkey_type
      spent := (outspends[p.1]?.map (·.spent)).getD false })

/-- Models `enrichedInputs.reduce((sum, i) => sum + (i.value ?? 0), 0)`. -/
def totalInputSats (inputs : List EnrichedInput) : Int :=
  inputs.foldl (fun sum i => sum + i.value) 0

/-- The success body assembled at the end of the route's `try` block. -/
def buildResponse (txid : String) (tx : BlockstreamTx) (rawHex : String)
    (outspends : List Outspend) (prevTxs : List (Option BlockstreamTx)) :
    TxExplainerResponse :=
  let enrichedInputs := enrichInputs tx.vin prevTxs
  let enrichedOutputs := enrichOutputs txid tx.vout outspends
  let totalInput := totalInputSats enrichedInputs
  let totalOutput := satsFromOutputs tx.vout
  let fee := tx.fee.getD (max (totalInput - totalOutput) 0)
  { txid := tx.txid
    fee := fee
    totalInput := totalInput
    totalOutput := totalOutput
    inputs := enrichedInputs
    outputs := enrichedOutputs
    status :=
      { confirmed := tx.status.confirmed
        blockHeight := tx.status.block_height
        blockHash := tx.status.block_hash
        blockTime := tx.status.block_time }
    details :=
      { version := tx.version
        locktime := tx.locktime
        size := tx.size
        weight := tx.weight
        vinCount := tx.vin.length
        voutCount := tx.vout.length }
    rawHex := rawHex
    changeOutputIndex := guessChangeOutputIndex enrichedInputs enrichedOutputs }

/-- The 400 error body for a malformed identifier. -/
def invalidTxidMessage : String :=
  "Please provide a valid 64-character hex transaction id."

/-- The 502 error body emitted by the route's `catch` block. -/
def upstreamFailureMessage : String :=
  "Failed to fetch or decode transaction from Blockstream testnet API."

/-- The route handler `GET`.  `rawTxid` is the dynamic route parameter
(`(rawTxid ?? "").trim()` handles a missing one); any exception thrown
inside the `try` block — a failing initial fetch or a failing ancestor
fetch — is turned into the single 502 error response. -/
def GET (u : Upstream) (rawTxid : Option String) : ApiResponse :=
  let txid := jsTrim (rawTxid.getD "")
  if !isValidTxid txid then ApiResponse.error 400 invalidTxidMessage
  else
    match u.getTx txid, u.getHex txid, u.getOutspends txid with
    | some tx, some rawHex, some outspends =>
      match resolvePrevTxs u tx.vin with
      | some prevTxs =>
          ApiResponse.ok (buildResponse txid tx rawHex outspends prevTxs)
      | none => ApiResponse.error 502 upstreamFailureMessage
    | _, _, _ => ApiResponse.error 502 upstreamFailureMessage

/-- Upstream path for `fetchJson(`/tx/{txid}`)`. -/
def txPath (txid : String) : String := "/tx/" ++ txid

/-- Upstream path for `fetchText(`/tx/{txid}/hex`)`. -/
def hexPath (txid : String) : String := "/tx/" ++ txid ++ "/hex"

/-- Upstream path for `fetchJson(`/tx/{txid}/outspends`)`. -/
def outspendsPath (txid : String) : String := "/tx/" ++ txid ++ "/outspends"

/-- The ancestor-fetch fan-out: one `/tx/{vin.txid}` request per input
not flagged coinbase (all of them are started by `Promise.all`, whether
or not some fail). -/
def ancestorFetchPaths (vins : List Vin) : List String :=
  vins.filterMap (fun vin =>
    if vin.is_coinbase then none else some (txPath vin.txid))

/-- The upstream paths the route requests for a given call, in program
order: nothing when validation fails; the three initial concurrent
fetches; then, only if all three succeed, the ancestor fan-out. -/
def upstreamPaths (u : Upstream) (rawTxid : Option String) : List String :=
  let txid := jsTrim (rawTxid.getD "")
  if !isValidTxid txid then []
  else
    let initial := [txPath txid, hexPath txid, outspendsPath txid]
    match u.getTx txid, u.getHex txid, u.getOutspends txid with
    | some tx, some _, some _ => initial ++ ancestorFetchPaths tx.vin
    | _, _, _ => initial

/-! ## The change heuristic as the specification words it

`selectSmallestFirst` and `changeHeuristicSpec` follow the
specification's wording of steps 1–6 of the heuristic (smallest-value
candidate, ties broken by first occurrence in output order); they are
compared against `guessChangeOutputIndex`, which follows the code. -/

/-- Select the element with the smallest `o.value`; on ties keep the
earliest occurrence.  This is the specification's step 5. -/
def selectSmallestFirst : List Cand → Option Cand
  | [] => none
  | c :: rest =>
    match selectSmallestFirst rest with
    | none => some c
    | some b => if b.o.value < c.o.value then some b else some c

/-- The change heuristic as described by the specification: fewer than
two outputs give `none`; candidates are outputs whose address appears
among the input addresses (all outputs if none match); candidates above
the dust threshold are preferred (all candidates if none are); the
smallest-valued remaining candidate wins, ties to the earliest. -/
def changeHeuristicSpec (inputs : List EnrichedInput)
    (outputs : List EnrichedOutput) : Option Nat :=
  if outputs.length < 2 then none
  else
    let inputAddresses := inputAddressList inputs
    let indexed := indexedOutputs outputs
    let matching := indexed.filter (matchesInputAddress inputAddresses)
    let candidates := if matching = [] then indexed else matching
    let nonDust := candidates.filter isNonDust
    let base := if nonDust = [] then candidates else nonDust
    (selectSmallestFirst base).map (·.idx)

/-- A selected element is an element of the list. -/
theorem selectSmallestFirst_mem {l : List Cand} {b : Cand}
    (h : selectSmallestFirst l = some b) : b ∈ l := by
  induction l with
  | nil => simp [selectSmallestFirst] at h
  | cons c rest ih =>
    rw [selectSmallestFirst] at h
    cases hr : selectSmallestFirst rest with
    | none => rw [hr] at h; cases h; exact List.mem_cons_self _ _
    | some d =>
      rw [hr] at h
      dsimp only at h
      by_cases hd : d.o.value < c.o.value
      · rw [if_pos hd] at h
        cases h
        exact List.mem_cons_of_mem _ (ih hr)
      · rw [if_neg hd] at h
        cases h
        exact List.mem_cons_self _ _

/-- Inserting an element whose value strictly exceeds everything in
`l₁` and is at most the head of `l₂` lands it exactly between the two. -/
theorem insertByValue_append {a : Cand} {l₁ l₂ : List Cand}
    (h₁ : ∀ b ∈ l₁, b.o.value < a.o.value)
    (h₂ : ∀ b ∈ l₂.head?, a.o.value ≤ b.o.value) :
    insertByValue a (l₁ ++ l₂) = l₁ ++ a :: l₂ := by
  induction l₁ with
  | nil =>
    cases l₂ with
    | nil => rfl
    | cons d t =>
      have hd : a.o.value ≤ d.o.value := h₂ d (by simp)
      simp [insertByValue, hd]
  | cons b l₁tl ih =>
    have hb := h₁ b (List.mem_cons_self _ _)
    have hba : ¬ a.o.value ≤ b.o.value := by omega
    simp only [List.cons_append, insertByValue, if_neg hba, List.append_eq]
    rw [ih (fun x hx => h₁ x (List.mem_cons_of_mem _ hx))]

/-- The stable insertion sort by value is the stable merge sort by
value: `stableSortByValue` computes the unique stable value-ascending
reordering that JavaScript's sort produces. -/
theorem stableSortByValue_eq_mergeSort (l : List Cand) :
    stableSortByValue l =
      List.mergeSort l (fun a b => decide (a.o.value ≤ b.o.value)) := by
  have htrans : ∀ a b c : Cand,
      (fun a b : Cand => decide (a.o.value ≤ b.o.value)) a b →
      (fun a b : Cand => decide (a.o.value ≤ b.o.value)) b c →
      (fun a b : Cand => decide (a.o.value ≤ b.o.value)) a c := by
    intro a b c h1 h2
    simp only [decide_eq_true_eq] at *
    omega
  have htotal : ∀ a b : Cand,
      ((fun a b : Cand => decide (a.o.value ≤ b.o.value)) a b ||
       (fun a b : Cand => decide (a.o.value ≤ b.o.value)) b a) = true := by
    intro a b
    simp only [Bool.or_eq_true, decide_eq_true_eq]
    omega
  induction l with
  | nil => simp [stableSortByValue]
  | cons a t ih =>
    obtain ⟨l₁, l₂, h₁, h₂, h₃⟩ :=
      @List.mergeSort_cons Cand (fun a b => decide (a.o.value ≤ b.o.value))
        htrans htotal a t
    rw [stableSortByValue, ih, h₂, h₁]
    apply insertByValue_append
    · intro b hb
      have := h₃ b hb
      simp only [Bool.not_eq_true', decide_eq_false_iff_not] at this
      omega
    · intro b hb
      have hsorted :=
        @List.sorted_mergeSort Cand (fun a b => decide (a.o.value ≤ b.o.value))
          htrans htotal (a :: t)
      rw [h₁] at hsorted
      have hpair := (List.pairwise_append.mp hsorted).2.1
      have hmem : b ∈ l₂ := List.mem_of_mem_head? hb
      have := (List.pairwise_cons.mp hpair).1 b hmem
      simpa using this

/-- The head of the stable value-ascending sort is the smallest-valued
element, earliest occurrence winning ties. -/
theorem head_stableSortByValue (l : List Cand) :
    (stableSortByValue l).head? = selectSmallestFirst l := by
  induction l with
  | nil => rfl
  | cons c rest ih =>
    rw [stableSortByValue, selectSmallestFirst]
    cases hs : stableSortByValue rest with
    | nil =>
      rw [hs] at ih
      rw [← ih]
      simp [insertByValue]
    | cons d t =>
      rw [hs] at ih
      rw [← ih]
      by_cases hcd : c.o.value ≤ d.o.value
      · have hdc : ¬ d.o.value < c.o.value := by omega
        simp [insertByValue, hcd, hdc]
      · have hdc : d.o.value < c.o.value := by omega
        simp [insertByValue, hcd, hdc]

/-- The code's heuristic and the specification's wording of it agree on
every input: shared helper for the claims below. -/
theorem guessChange_eq_heuristicSpec (inputs : List EnrichedInput)
    (outputs : List EnrichedOutput) :
    guessChangeOutputIndex inputs outputs = changeHeuristicSpec inputs outputs := by
  unfold guessChangeOutputIndex changeHeuristicSpec
  by_cases h : outputs.length < 2
  · simp only [if_pos h]
  · have hCand : ∀ (indexed withMatch : List Cand),
        (if withMatch.isEmpty = true then indexed else withMatch) =
        (if withMatch = [] then indexed else withMatch) := by
      intro indexed withMatch
      cases withMatch <;> simp
    have hBase : ∀ (candidates nonDust : List Cand),
        (if nonDust.length > 0 then nonDust else candidates) =
        (if nonDust = [] then candidates else nonDust) := by
      intro candidates nonDust
      cases nonDust <;> simp
    simp only [if_neg h, head_stableSortByValue, hCand, hBase]

/-- Sorting by value does not change the members of the list. -/
theorem mem_stableSortByValue {x : Cand} {l : List Cand} :
    x ∈ stableSortByValue l ↔ x ∈ l := by
  rw [stableSortByValue_eq_mergeSort]
  exact List.mem_mergeSort

/-- Preferring the non-dust sublist never leaves the candidate list. -/
theorem mem_of_mem_base {c : Cand} {l : List Cand} {p : Cand → Bool}
    (h : c ∈ if (l.filter p).length > 0 then l.filter p else l) : c ∈ l := by
  split at h
  · exact (List.mem_filter.mp h).1
  · exact h

/-- Every indexed output carries an index below the output count. -/
theorem idx_lt_of_mem_indexedOutputs {outputs : List EnrichedOutput}
    {c : Cand} (h : c ∈ indexedOutputs outputs) : c.idx < outputs.length := by
  unfold indexedOutputs at h
  obtain ⟨p, hp, hpc⟩ := List.mem_map.mp h
  rw [List.enum] at hp
  have hlt := @List.fst_lt_add_of_mem_enumFrom EnrichedOutput p 0 outputs hp
  cases hpc
  simpa using hlt

/-- C5: the change heuristic only ever returns `null` or an index into
the output sequence; it never returns an out-of-range index. -/
theorem changeOutputIndex_in_range (inputs : List EnrichedInput)
    (outputs : List EnrichedOutput) (i : Nat)
    (h : guessChangeOutputIndex inputs outputs = some i) :
    i < outputs.length := by
  unfold guessChangeOutputIndex at h
  by_cases hlen : outputs.length < 2
  · rw [if_pos hlen] at h
    exact absurd h (by simp)
  · rw [if_neg hlen] at h
    simp only [Option.map_eq_some'] at h
    obtain ⟨c, hc, hidx⟩ := h
    have hmem := mem_stableSortByValue.mp
      (List.mem_of_mem_head? (Option.mem_def.mpr hc))
    have hind : c ∈ indexedOutputs outputs := by
      split at hmem
      · exact mem_of_mem_base hmem
      · exact (List.mem_filter.mp (mem_of_mem_base hmem)).1
    rw [← hidx]
    exact idx_lt_of_mem_indexedOutputs hind

/-- C6: a transaction with fewer than two outputs (in particular with
exactly one output) always yields no change guess. -/
theorem fewer_than_two_outputs_no_change (inputs : List EnrichedInput)
    (outputs : List EnrichedOutput) (h : outputs.length < 2) :
    guessChangeOutputIndex inputs outputs = none := by
  unfold guessChangeOutputIndex
  rw [if_pos h]

/-- C7: with at least two outputs, the heuristic takes as candidates
the outputs whose address is present and occurs among the resolved
input addresses (all outputs when none match), keeps those above the
1000-sat dust threshold (all candidates when none are), and returns the
original index of the smallest-valued candidate, earliest output
winning ties — exactly `changeHeuristicSpec`. -/
theorem change_heuristic_matches_description (inputs : List EnrichedInput)
    (outputs : List EnrichedOutput) (_h : 2 ≤ outputs.length) :
    guessChangeOutputIndex inputs outputs = changeHeuristicSpec inputs outputs :=
  guessChange_eq_heuristicSpec inputs outputs

/-- Fixture: an enriched input holding 50000 sats at address `A`. -/
def inputA50000 : EnrichedInput :=
  { txid := "p1", vout := 0, value := 50000, address := some "A",
    scriptType := some "v0_p2wpkh", isCoinbase := false }

/-- Fixture: a 70000-sat output paying address `A`. -/
def outputA70000 : EnrichedOutput :=
  { txid := "t1", vout := 0, value := 70000, address := some "A",
    scriptType := some "v0_p2wpkh", spent := false }

/-- Fixture: a 9000-sat output paying address `B`. -/
def outputB9000 : EnrichedOutput :=
  { txid := "t1", vout := 1, value := 9000, address := some "B",
    scriptType := some "v0_p2wpkh", spent := false }

/-- The range bound instantiated on a concrete two-output transaction:
the heuristic picks index 0, which is within range. -/
theorem changeOutputIndex_in_range_witness :
    guessChangeOutputIndex [inputA50000] [outputA70000, outputB9000] = some 0 ∧
      0 < ([outputA70000, outputB9000] : List EnrichedOutput).length :=
  ⟨by decide,
   changeOutputIndex_in_range [inputA50000] [outputA70000, outputB9000] 0 (by decide)⟩

/-- The single-output rule instantiated on a concrete one-output
transaction. -/
theorem fewer_than_two_outputs_no_change_witness :
    ([outputA70000] : List EnrichedOutput).length < 2 ∧
      guessChangeOutputIndex [inputA50000] [outputA70000] = none :=
  ⟨by decide,
   fewer_than_two_outputs_no_change [inputA50000] [outputA70000] (by decide)⟩

/-- The heuristic description instantiated on a concrete two-output
transaction. -/
theorem change_heuristic_matches_description_witness :
    2 ≤ ([outputA70000, outputB9000] : List EnrichedOutput).length ∧
      guessChangeOutputIndex [inputA50000] [outputA70000, outputB9000] =
        changeHeuristicSpec [inputA50000] [outputA70000, outputB9000] :=
  ⟨by decide,
   change_heuristic_matches_description [inputA50000] [outputA70000, outputB9000] (by decide)⟩

/-! ## The `Promise.all` join, position-wise -/

/-- A successful `mapM` in the `Option` monad succeeds position-wise. -/
theorem mapM_option_getElem? {α β : Type} {f : α → Option β} :
    ∀ {l : List α} {r : List β}, l.mapM f = some r →
      ∀ {i : Nat} {a : α}, l[i]? = some a → ∃ b, f a = some b ∧ r[i]? = some b := by
  intro l
  induction l with
  | nil =>
    intro r h i a ha
    simp at ha
  | cons x xs ih =>
    intro r h i a ha
    rw [List.mapM_cons] at h
    cases hfx : f x with
    | none => rw [hfx] at h; simp at h
    | some b =>
      rw [hfx] at h
      cases hxs : xs.mapM f with
      | none => rw [hxs] at h; simp at h
      | some bs =>
        rw [hxs] at h
        simp at h
        subst h
        cases i with
        | zero =>
          simp only [List.getElem?_cons_zero, Option.some.injEq] at ha
          subst ha
          exact ⟨b, hfx, by simp⟩
        | succ n =>
          simp only [List.getElem?_cons_succ] at ha ⊢
          exact ih hxs ha

/-- One failing element makes the whole `Option`-monad `mapM` fail --
the model of `Promise.all` rejecting when one promise rejects. -/
theorem mapM_option_eq_none_of_mem {α β : Type} {f : α → Option β} :
    ∀ {l : List α} {a : α}, a ∈ l → f a = none → l.mapM f = none := by
  intro l
  induction l with
  | nil =>
    intro a ha
    simp at ha
  | cons x xs ih =>
    intro a ha hfa
    rw [List.mapM_cons]
    rcases List.mem_cons.mp ha with rfl | hmem
    · rw [hfa]
      simp
    · cases hfx : f x with
      | none => simp
      | some b =>
        rw [ih hmem hfa]
        simp

/-- If every element succeeds, the `Option`-monad `mapM` succeeds. -/
theorem mapM_option_isSome {α β : Type} {f : α → Option β} :
    ∀ {l : List α}, (∀ a ∈ l, (f a).isSome = true) → ∃ r, l.mapM f = some r := by
  intro l
  induction l with
  | nil =>
    intro h
    exact ⟨[], rfl⟩
  | cons x xs ih =>
    intro h
    obtain ⟨b, hb⟩ := Option.isSome_iff_exists.mp (h x (List.mem_cons_self _ _))
    obtain ⟨bs, hbs⟩ := ih (fun a ha => h a (List.mem_cons_of_mem _ ha))
    refine ⟨b :: bs, ?_⟩
    rw [List.mapM_cons, hb, hbs]
    rfl

/-! ## Characterizing the route's control flow -/

/-- Inversion of a successful call: validation passed, the three
initial fetches and the ancestor join succeeded, and the body is the
assembled response. -/
theorem GET_ok_inv {u : Upstream} {raw : Option String}
    {body : TxExplainerResponse} (h : GET u raw = ApiResponse.ok body) :
    isValidTxid (jsTrim (raw.getD "")) = true ∧
      ∃ tx rawHex outspends prevTxs,
        u.getTx (jsTrim (raw.getD "")) = some tx ∧
        u.getHex (jsTrim (raw.getD "")) = some rawHex ∧
        u.getOutspends (jsTrim (raw.getD "")) = some outspends ∧
        resolvePrevTxs u tx.vin = some prevTxs ∧
        body = buildResponse (jsTrim (raw.getD "")) tx rawHex outspends prevTxs := by
  unfold GET at h
  simp only [] at h
  by_cases hv : isValidTxid (jsTrim (raw.getD "")) = true
  · refine ⟨hv, ?_⟩
    rw [hv] at h
    simp only [Bool.not_true, Bool.false_eq_true, if_false] at h
    rcases htx : u.getTx (jsTrim (raw.getD "")) with _ | tx <;>
      rcases hhex : u.getHex (jsTrim (raw.getD "")) with _ | rawHex <;>
        rcases hout : u.getOutspends (jsTrim (raw.getD "")) with _ | outspends <;>
          rw [htx, hhex, hout] at h <;> simp only [] at h
    · simp at h
    · simp at h
    · simp at h
    · simp at h
    · simp at h
    · simp at h
    · simp at h
    · rcases hprev : resolvePrevTxs u tx.vin with _ | prevTxs <;>
        rw [hprev] at h <;> simp at h
      exact ⟨tx, rawHex, outspends, prevTxs, rfl, rfl, rfl, hprev, h.symm⟩
  · exfalso
    have hvf : isValidTxid (jsTrim (raw.getD "")) = false :=
      Bool.eq_false_iff.mpr (fun hcontra => hv hcontra)
    rw [hvf] at h
    simp at h

/-- The success path of `GET`, forwards: when validation and all
fetches succeed, the route emits the assembled response. -/
theorem GET_eq_ok {u : Upstream} {raw : Option String} {tx : BlockstreamTx}
    {rawHex : String} {outspends : List Outspend}
    {prevTxs : List (Option BlockstreamTx)}
    (hv : isValidTxid (jsTrim (raw.getD "")) = true)
    (htx : u.getTx (jsTrim (raw.getD "")) = some tx)
    (hhex : u.getHex (jsTrim (raw.getD "")) = some rawHex)
    (hout : u.getOutspends (jsTrim (raw.getD "")) = some outspends)
    (hprev : resolvePrevTxs u tx.vin = some prevTxs) :
    GET u raw =
      ApiResponse.ok
        (buildResponse (jsTrim (raw.getD "")) tx rawHex outspends prevTxs) := by
  unfold GET
  simp only []
  rw [hv, htx, hhex, hout]
  simp only [Bool.not_true, Bool.false_eq_true, if_false]
  rw [hprev]

/-- Position-wise description of the enriched inputs. -/
theorem enrichInputs_getElem? {vins : List Vin}
    {prevTxs : List (Option BlockstreamTx)} {i : Nat} {vin : Vin}
    (h : vins[i]? = some vin) :
    (enrichInputs vins prevTxs)[i]? =
      some (enrichInput vin (prevTxs[i]?.getD none)) := by
  unfold enrichInputs
  rw [List.getElem?_map, List.getElem?_enum, h]
  rfl

/-- The ancestor fan-out requests exactly one `/tx/{txid}` path per
non-coinbase input. -/
theorem ancestorFetchPaths_eq (vins : List Vin) :
    ancestorFetchPaths vins =
      (vins.filter (fun v => !v.is_coinbase)).map (fun v => txPath v.txid) := by
  induction vins with
  | nil => rfl
  | cons v rest ih =>
    unfold ancestorFetchPaths at ih ⊢
    cases hcb : v.is_coinbase <;>
      simp [List.filterMap_cons, List.filter_cons, hcb, ih]

/-! ## Concrete fixtures -/

/-- Fixture: a well-formed 64-hex transaction identifier. -/
def hex64 : String :=
  "aaaaaaaaaaaaaaaaaaaaaaaaaaaaaaaaaaaaaaaaaaaaaaaaaaaaaaaaaaaaaaaa"

/-- Fixture: a second 64-hex identifier, used as an ancestor id. -/
def ancHex : String :=
  "bbbbbbbbbbbbbbbbbbbbbbbbbbbbbbbbbbbbbbbbbbbbbbbbbbbbbbbbbbbbbbbb"

/-- Fixture: a confirmed status block. -/
def okStatus : TxStatus :=
  { confirmed := true, block_height := some 100, block_hash := some "h0",
    block_time := some 1700000000 }

/-- Fixture: a non-coinbase input spending output 0 of `ancHex`. -/
def failVin : Vin := { txid := ancHex, vout := 0, is_coinbase := false }

/-- Fixture: a transaction whose only input references `ancHex`. -/
def failTx : BlockstreamTx :=
  { txid := hex64, fee := some 150, version := 2, locktime := 0, size := 190,
    weight := 760, vin := [failVin], vout := [], status := okStatus }

/-- Fixture: an upstream that serves the main transaction but fails
every ancestor fetch (`ancHex` is not served). -/
def failUpstream : Upstream :=
  { getTx := fun s => if s = hex64 then some failTx else none
    getHex := fun s => if s = hex64 then some "raw00" else none
    getOutspends := fun s => if s = hex64 then some [] else none }

/-- C1 is false on the code: with a valid identifier, a fetched main
transaction and a non-coinbase input whose ancestor fetch fails, the
request does not succeed with a degraded input — the `Promise.all`
rejection reaches the catch block and the whole request fails 502. -/
theorem ancestor_failure_counterexample :
    isValidTxid hex64 = true ∧
      failUpstream.getTx (jsTrim ((some hex64).getD "")) = some failTx ∧
      failVin ∈ failTx.vin ∧
      failVin.is_coinbase = false ∧
      failUpstream.getTx failVin.txid = none ∧
      GET failUpstream (some hex64) =
        ApiResponse.error 502 upstreamFailureMessage :=
  ⟨by decide, by decide, by decide, by decide, by decide, by decide⟩

/-- C1 (amended): when the ancestor fetch of any non-coinbase input
fails, the whole request fails with the 502 upstream error — the
zero-value degradation applies only to an ancestor that is fetched but
lacks the referenced output index. -/
theorem ancestor_fetch_failure_fails_request (u : Upstream)
    (raw : Option String) (tx : BlockstreamTx) (vin : Vin)
    (hv : isValidTxid (jsTrim (raw.getD "")) = true)
    (htx : u.getTx (jsTrim (raw.getD "")) = some tx)
    (hvin : vin ∈ tx.vin) (hcb : vin.is_coinbase = false)
    (hfail : u.getTx vin.txid = none) :
    GET u raw = ApiResponse.error 502 upstreamFailureMessage := by
  have hres : resolvePrevTxs u tx.vin = none := by
    unfold resolvePrevTxs
    apply mapM_option_eq_none_of_mem hvin
    simp [hcb, hfail]
  unfold GET
  simp only []
  rw [hv, htx]
  simp only [Bool.not_true, Bool.false_eq_true, if_false]
  rcases u.getHex (jsTrim (raw.getD "")) with _ | hx <;>
    rcases u.getOutspends (jsTrim (raw.getD "")) with _ | os <;>
      simp [hres]

/-- The amended C1 statement instantiated on the concrete fixture. -/
theorem ancestor_fetch_failure_fails_request_witness :
    isValidTxid (jsTrim ((some hex64).getD "")) = true ∧
      GET failUpstream (some hex64) =
        ApiResponse.error 502 upstreamFailureMessage :=
  ⟨by decide,
   ancestor_fetch_failure_fails_request failUpstream (some hex64) failTx failVin
     (by decide) (by decide) (by decide) (by decide) (by decide)⟩

/-- Fixture: a minimal transaction with no inputs and no outputs. -/
def emptyTx : BlockstreamTx :=
  { txid := hex64, fee := some 0, version := 2, locktime := 0, size := 60,
    weight := 240, vin := [], vout := [], status := okStatus }

/-- Fixture: an upstream serving `hex64` and nothing else. -/
def padUpstream : Upstream :=
  { getTx := fun s => if s = hex64 then some emptyTx else none
    getHex := fun s => if s = hex64 then some "rawpad" else none
    getOutspends := fun s => if s = hex64 then some [] else none }

/-- Fixture: the valid identifier surrounded by whitespace. -/
def paddedHex64 : String := " " ++ hex64 ++ " "

/-- C2 is false on the code: this supplied identifier is not exactly
64 hexadecimal characters (66 characters with its surrounding
whitespace), yet the route trims it first, accepts it, and performs
upstream calls. -/
theorem malformed_rejection_counterexample :
    isValidTxid paddedHex64 = false ∧
      GET padUpstream (some paddedHex64) ≠
        ApiResponse.error 400 invalidTxidMessage ∧
      upstreamPaths padUpstream (some paddedHex64) ≠ [] :=
  ⟨by decide, by decide, by decide⟩

/-- C2 (amended): whenever the whitespace-trimmed identifier is not
exactly 64 hex characters, the route rejects with the 400
`InvalidIdentifier` error and requests no upstream path at all. -/
theorem malformed_id_rejected_no_calls (u : Upstream) (raw : Option String)
    (h : isValidTxid (jsTrim (raw.getD "")) = false) :
    GET u raw = ApiResponse.error 400 invalidTxidMessage ∧
      upstreamPaths u raw = [] := by
  constructor
  · unfold GET
    simp only []
    rw [h]
    simp
  · unfold upstreamPaths
    simp only []
    rw [h]
    simp

/-- The amended C2 statement instantiated on a concrete malformed
identifier. -/
theorem malformed_id_rejected_no_calls_witness :
    isValidTxid (jsTrim ((some "xyz").getD "")) = false ∧
      (GET padUpstream (some "xyz") = ApiResponse.error 400 invalidTxidMessage ∧
        upstreamPaths padUpstream (some "xyz") = []) :=
  ⟨by decide, malformed_id_rejected_no_calls padUpstream (some "xyz") (by decide)⟩

/-! ## Trimming -/

/-- Hex characters are never whitespace. -/
theorem not_whitespace_of_isHexChar {c : Char} (h : isHexChar c = true) :
    c.isWhitespace = false := by
  cases hws : c.isWhitespace
  · rfl
  · exfalso
    have hc : c = ' ' ∨ c = '\t' ∨ c = '\r' ∨ c = '\n' := by
      unfold Char.isWhitespace at hws
      simp only [Bool.or_eq_true, decide_eq_true_eq] at hws
      tauto
    rcases hc with rfl | rfl | rfl | rfl <;> exact absurd h (by decide)

/-- Dropping passes over a fully satisfied prefix. -/
theorem dropWhile_append_all {p : Char → Bool} :
    ∀ {l₁ l₂ : List Char}, l₁.all p = true →
      (l₁ ++ l₂).dropWhile p = l₂.dropWhile p := by
  intro l₁
  induction l₁ with
  | nil =>
    intro l₂ h
    rfl
  | cons c rest ih =>
    intro l₂ h
    simp only [List.all_cons, Bool.and_eq_true] at h
    simp only [List.cons_append, List.dropWhile_cons, h.1, if_true]
    exact ih h.2

/-- Dropping stops at an unsatisfied head. -/
theorem dropWhile_eq_self_of_head {p : Char → Bool} {c : Char} {l : List Char}
    (h : p c = false) : (c :: l).dropWhile p = c :: l := by
  simp [List.dropWhile_cons, h]

/-- Dropping keeps a list none of whose elements satisfy `p`. -/
theorem dropWhile_eq_self_of_all_false {p : Char → Bool} {l : List Char}
    (h : ∀ c ∈ l, p c = false) : l.dropWhile p = l := by
  cases l with
  | nil => rfl
  | cons c rest => exact dropWhile_eq_self_of_head (h c (List.mem_cons_self _ _))

/-- Dropping keeps an appended list whose nonempty prefix starts
with an unsatisfied element. -/
theorem dropWhile_append_eq_self {p : Char → Bool} {l₁ l₂ : List Char}
    (h₁ : ∀ c ∈ l₁, p c = false) (hne : l₁ ≠ []) :
    (l₁ ++ l₂).dropWhile p = l₁ ++ l₂ := by
  cases l₁ with
  | nil => exact absurd rfl hne
  | cons c rest =>
    rw [List.cons_append]
    exact dropWhile_eq_self_of_head (h₁ c (List.mem_cons_self _ _))

/-- Trimming strips exactly the whitespace padding around a 64-hex
core. -/
theorem jsTrim_padded {pre core post : String}
    (hcore : isValidTxid core = true)
    (hpre : pre.data.all Char.isWhitespace = true)
    (hpost : post.data.all Char.isWhitespace = true) :
    jsTrim (pre ++ core ++ post) = core := by
  unfold jsTrim
  unfold isValidTxid at hcore
  simp only [Bool.and_eq_true, beq_iff_eq] at hcore
  obtain ⟨hlen, hhex⟩ := hcore
  have hallhex : ∀ c ∈ core.data, isHexChar c = true := by
    intro c hc
    exact List.all_eq_true.mp hhex c hc
  have hnws : ∀ c ∈ core.data, Char.isWhitespace c = false :=
    fun c hc => not_whitespace_of_isHexChar (hallhex c hc)
  have hne : core.data ≠ [] := by
    intro hnil
    have hz : core.length = 0 := by simp [String.length, hnil]
    omega
  have hdata : (pre ++ core ++ post).data =
      pre.data ++ (core.data ++ post.data) := by
    simp [List.append_assoc]
  rw [hdata, dropWhile_append_all hpre, dropWhile_append_eq_self hnws hne]
  rw [List.reverse_append]
  have hpostrev : post.data.reverse.all Char.isWhitespace = true := by
    rw [List.all_reverse]
    exact hpost
  rw [dropWhile_append_all hpostrev]
  have hnwsrev : ∀ c ∈ core.data.reverse, Char.isWhitespace c = false := by
    intro c hc
    exact hnws c (List.mem_reverse.mp hc)
  rw [dropWhile_eq_self_of_all_false hnwsrev]
  rw [List.reverse_reverse]

/-- C10: the supplied identifier is trimmed of surrounding whitespace
before the 64-hex check, so a valid identifier surrounded by
whitespace passes validation and is never rejected with the 400
error. -/
theorem whitespace_padded_id_accepted (u : Upstream) (pre core post : String)
    (hcore : isValidTxid core = true)
    (hpre : pre.data.all Char.isWhitespace = true)
    (hpost : post.data.all Char.isWhitespace = true) :
    isValidTxid (jsTrim ((some (pre ++ core ++ post)).getD "")) = true ∧
      GET u (some (pre ++ core ++ post)) ≠
        ApiResponse.error 400 invalidTxidMessage := by
  have hvalid : isValidTxid (jsTrim ((some (pre ++ core ++ post)).getD "")) = true := by
    show isValidTxid (jsTrim (pre ++ core ++ post)) = true
    rw [jsTrim_padded hcore hpre hpost]
    exact hcore
  refine ⟨hvalid, ?_⟩
  intro hcontra
  unfold GET at hcontra
  simp only [] at hcontra
  rw [hvalid] at hcontra
  simp only [Bool.not_true, Bool.false_eq_true, if_false] at hcontra
  rcases htx : u.getTx (jsTrim ((some (pre ++ core ++ post)).getD "")) with _ | tx <;>
    rcases hhex : u.getHex (jsTrim ((some (pre ++ core ++ post)).getD "")) with _ | hx <;>
      rcases hout : u.getOutspends (jsTrim ((some (pre ++ core ++ post)).getD "")) with _ | os <;>
        rw [htx, hhex, hout] at hcontra <;> simp at hcontra
  rcases hprev : resolvePrevTxs u tx.vin with _ | p <;>
    rw [hprev] at hcontra <;> simp at hcontra

/-- The trimming claim instantiated: a single leading space around the
valid identifier is accepted. -/
theorem whitespace_padded_id_accepted_witness :
    (isValidTxid hex64 = true ∧
      (" " : String).data.all Char.isWhitespace = true ∧
      ("" : String).data.all Char.isWhitespace = true) ∧
    (isValidTxid (jsTrim ((some (" " ++ hex64 ++ "")).getD "")) = true ∧
      GET padUpstream (some (" " ++ hex64 ++ "")) ≠
        ApiResponse.error 400 invalidTxidMessage) :=
  ⟨⟨by decide, by decide, by decide⟩,
   whitespace_padded_id_accepted padUpstream " " hex64 ""
     (by decide) (by decide) (by decide)⟩

/-! ## Fee policy and totals -/

/-- C3: a successful response's fee is the upstream-declared fee
verbatim whenever one is present — even when it differs from
`totalInput − totalOutput` — and `max(totalInput − totalOutput, 0)`
whenever the upstream omits it. -/
theorem fee_policy (u : Upstream) (raw : Option String)
    (body : TxExplainerResponse) (tx : BlockstreamTx)
    (hok : GET u raw = ApiResponse.ok body)
    (htx : u.getTx (jsTrim (raw.getD "")) = some tx) :
    (tx.fee = none → body.fee = max (body.totalInput - body.totalOutput) 0) ∧
      ∀ f, tx.fee = some f → body.fee = f := by
  obtain ⟨hv, tx2, rawHex, outspends, prevTxs, htx2, hhex, hout, hprev, hbody⟩ :=
    GET_ok_inv hok
  rw [htx] at htx2
  injection htx2 with he
  subst he
  subst hbody
  constructor
  · intro hfee
    simp [buildResponse, hfee]
  · intro f hfee
    simp [buildResponse, hfee]

/-- Fixture: a transaction declaring fee 999 while its single output
totals 600 and it has no inputs (the arithmetic difference is 0 after
flooring, so the declared fee visibly differs from it). -/
def feeTx : BlockstreamTx :=
  { txid := hex64, fee := some 999, version := 2, locktime := 0, size := 110,
    weight := 440, vin := [],
    vout := [{ value := 600, scriptpubkey_address := some "B",
               scriptpubkey_type := some "p2pkh" }],
    status := okStatus }

/-- Fixture: an upstream serving `feeTx` under `hex64`. -/
def feeUpstream : Upstream :=
  { getTx := fun s => if s = hex64 then some feeTx else none
    getHex := fun s => if s = hex64 then some "rawfee" else none
    getOutspends := fun s => if s = hex64 then some [{ spent := true }] else none }

/-- Fixture: the response body assembled for `feeTx`. -/
def feeBody : TxExplainerResponse :=
  buildResponse hex64 feeTx "rawfee" [{ spent := true }] []

/-- The fee policy instantiated: the declared fee 999 is reported
verbatim although the floored arithmetic difference is 0. -/
theorem fee_policy_witness :
    (GET feeUpstream (some hex64) = ApiResponse.ok feeBody ∧
      feeUpstream.getTx (jsTrim ((some hex64).getD "")) = some feeTx ∧
      feeBody.fee = 999 ∧ feeBody.totalInput - feeBody.totalOutput = -600) ∧
    ((feeTx.fee = none →
        feeBody.fee = max (feeBody.totalInput - feeBody.totalOutput) 0) ∧
      ∀ f, feeTx.fee = some f → feeBody.fee = f) :=
  ⟨⟨by decide, by decide, by decide, by decide⟩,
   fee_policy feeUpstream (some hex64) feeBody feeTx (by decide) (by decide)⟩

/-- Fixture: a transaction declaring a negative fee. -/
def negFeeTx : BlockstreamTx :=
  { txid := hex64, fee := some (-7), version := 2, locktime := 0, size := 80,
    weight := 320, vin := [], vout := [], status := okStatus }

/-- Fixture: an upstream serving `negFeeTx` under `hex64`. -/
def negFeeUpstream : Upstream :=
  { getTx := fun s => if s = hex64 then some negFeeTx else none
    getHex := fun s => if s = hex64 then some "rawneg" else none
    getOutspends := fun s => if s = hex64 then some [] else none }

/-- Fixture: the response body assembled for `negFeeTx`. -/
def negFeeBody : TxExplainerResponse :=
  buildResponse hex64 negFeeTx "rawneg" [] []

/-- C4 is false on the code: the route never checks an
upstream-declared fee for non-negativity; a declared fee of −7 on a
successful request is reported verbatim, so the reported fee is
negative rather than falling back to `max(totalInput − totalOutput, 0)`. -/
theorem nonnegative_fee_counterexample :
    isValidTxid hex64 = true ∧
      GET negFeeUpstream (some hex64) = ApiResponse.ok negFeeBody ∧
      negFeeTx.fee = some (-7) ∧
      negFeeBody.fee < 0 :=
  ⟨by decide, by decide, by decide, by decide⟩

/-- Summing one value per element from a non-negative accumulator
stays non-negative when every summand is non-negative. -/
theorem foldl_add_value_nonneg {α : Type} (f : α → Int) :
    ∀ (l : List α) (acc : Int), 0 ≤ acc → (∀ x ∈ l, 0 ≤ f x) →
      0 ≤ l.foldl (fun sum x => sum + f x) acc := by
  intro l
  induction l with
  | nil =>
    intro acc hacc hall
    exact hacc
  | cons x rest ih =>
    intro acc hacc hall
    rw [List.foldl_cons]
    apply ih
    · have := hall x (List.mem_cons_self _ _)
      omega
    · exact fun y hy => hall y (List.mem_cons_of_mem _ hy)

/-- Every enriched input's value is non-negative when every output
value the upstream ever serves is non-negative. -/
theorem enrichInputs_value_nonneg {u : Upstream} {vins : List Vin}
    {prevTxs : List (Option BlockstreamTx)}
    (hres : resolvePrevTxs u vins = some prevTxs)
    (hvals : ∀ s t, u.getTx s = some t → ∀ o ∈ t.vout, 0 ≤ o.value) :
    ∀ e ∈ enrichInputs vins prevTxs, 0 ≤ e.value := by
  intro e he
  unfold enrichInputs at he
  obtain ⟨p, hp, hpe⟩ := List.mem_map.mp he
  subst hpe
  have hvin : vins[p.1]? = some p.2 := by
    have := List.mem_enum_iff_getElem?.mp hp
    exact this
  unfold resolvePrevTxs at hres
  obtain ⟨b, hfb, hrb⟩ := mapM_option_getElem? hres hvin
  rw [hrb]
  cases b with
  | none => simp [enrichInput]
  | some ptx =>
    simp only [Option.getD_some]
    cases hcb : p.2.is_coinbase with
    | true => rw [if_pos (by rw [hcb])] at hfb; simp at hfb
    | false =>
      rw [if_neg (by rw [hcb]; exact Bool.false_ne_true)] at hfb
      have hgt : u.getTx p.2.txid = some ptx := by
        cases hup : u.getTx p.2.txid with
        | none => rw [hup] at hfb; simp at hfb
        | some t2 => rw [hup] at hfb; simp at hfb; rw [hfb]
      unfold enrichInput
      cases hpo : ptx.vout[p.2.vout]? with
      | none => simp [hpo]
      | some o =>
        simp only [hpo, Option.map_some', Option.getD_some]
        exact hvals _ _ hgt o (List.getElem?_mem hpo)

/-- C4 (amended): on a successful request, `totalInput` and
`totalOutput` are non-negative whenever every upstream-served output
value is non-negative, and the fee is non-negative whenever the
upstream omits it; an upstream-declared fee is used verbatim with no
non-negativity check, so a negative declared fee is reported as-is. -/
theorem totals_and_fee_nonneg (u : Upstream) (raw : Option String)
    (body : TxExplainerResponse) (tx : BlockstreamTx)
    (hok : GET u raw = ApiResponse.ok body)
    (htx : u.getTx (jsTrim (raw.getD "")) = some tx)
    (hvals : ∀ s t, u.getTx s = some t → ∀ o ∈ t.vout, 0 ≤ o.value) :
    0 ≤ body.totalInput ∧ 0 ≤ body.totalOutput ∧
      (tx.fee = none → 0 ≤ body.fee) ∧
      (∀ f, tx.fee = some f → body.fee = f) := by
  obtain ⟨hv, tx2, rawHex, outspends, prevTxs, htx2, hhex, hout, hprev, hbody⟩ :=
    GET_ok_inv hok
  rw [htx] at htx2
  injection htx2 with he
  subst he
  subst hbody
  have hIn : 0 ≤ totalInputSats (enrichInputs tx.vin prevTxs) := by
    unfold totalInputSats
    exact foldl_add_value_nonneg (fun e : EnrichedInput => e.value) _ 0 le_rfl
      (enrichInputs_value_nonneg hprev hvals)
  have hOut : 0 ≤ satsFromOutputs tx.vout := by
    unfold satsFromOutputs
    exact foldl_add_value_nonneg (fun o : Vout => o.value) _ 0 le_rfl
      (hvals _ _ htx)
  refine ⟨hIn, hOut, ?_, ?_⟩
  · intro hfee
    simp only [buildResponse, hfee, Option.getD_none]
    exact le_max_right _ _
  · intro f hfee
    simp [buildResponse, hfee]

/-- Fixture: a fee-less transaction with two non-negative outputs. -/
def nnTx : BlockstreamTx :=
  { txid := hex64, fee := none, version := 2, locktime := 0, size := 200,
    weight := 800, vin := [],
    vout := [{ value := 70000, scriptpubkey_address := some "A",
               scriptpubkey_type := some "p2pkh" },
             { value := 9000, scriptpubkey_address := some "B",
               scriptpubkey_type := some "p2pkh" }],
    status := okStatus }

/-- Fixture: an upstream serving `nnTx` under `hex64`. -/
def nnUpstream : Upstream :=
  { getTx := fun s => if s = hex64 then some nnTx else none
    getHex := fun s => if s = hex64 then some "rawnn" else none
    getOutspends := fun s =>
      if s = hex64 then some [{ spent := false }, { spent := false }] else none }

/-- Fixture: the response body assembled for `nnTx`. -/
def nnBody : TxExplainerResponse :=
  buildResponse hex64 nnTx "rawnn" [{ spent := false }, { spent := false }] []

/-- The amended totals statement instantiated on a concrete fee-less
transaction with non-negative values. -/
theorem totals_and_fee_nonneg_witness :
    0 ≤ nnBody.totalInput ∧ 0 ≤ nnBody.totalOutput ∧
      (nnTx.fee = none → 0 ≤ nnBody.fee) ∧
      (∀ f, nnTx.fee = some f → nnBody.fee = f) :=
  totals_and_fee_nonneg nnUpstream (some hex64) nnBody nnTx (by decide) (by decide)
    (by
      intro s t hst
      simp only [nnUpstream] at hst
      by_cases hs : s = hex64
      · rw [if_pos hs] at hst
        injection hst with h2
        subst h2
        decide
      · rw [if_neg hs] at hst
        simp at hst)

/-! ## Input resolution -/

/-- C8: a coinbase input triggers no ancestor fetch (the fan-out
requests exactly one path per non-coinbase input) and resolves to zero
value, absent address and script type, with the coinbase flag set. -/
theorem coinbase_input_never_fetched (u : Upstream) (raw : Option String)
    (body : TxExplainerResponse) (tx : BlockstreamTx) (idx : Nat) (vin : Vin)
    (hok : GET u raw = ApiResponse.ok body)
    (htx : u.getTx (jsTrim (raw.getD "")) = some tx)
    (hvin : tx.vin[idx]? = some vin)
    (hcb : vin.is_coinbase = true) :
    body.inputs[idx]? =
      some { txid := vin.txid, vout := vin.vout, value := 0,
             address := none, scriptType := none, isCoinbase := true } ∧
    ancestorFetchPaths tx.vin =
      (tx.vin.filter (fun v => !v.is_coinbase)).map (fun v => txPath v.txid) := by
  obtain ⟨hv, tx2, rawHex, outspends, prevTxs, htx2, hhex, hout, hprev, hbody⟩ :=
    GET_ok_inv hok
  rw [htx] at htx2
  injection htx2 with he
  subst he
  subst hbody
  constructor
  · have hbi : (buildResponse (jsTrim (raw.getD "")) tx rawHex outspends
        prevTxs).inputs = enrichInputs tx.vin prevTxs := rfl
    rw [hbi, enrichInputs_getElem? hvin]
    unfold resolvePrevTxs at hprev
    obtain ⟨b, hfb, hrb⟩ := mapM_option_getElem? hprev hvin
    rw [if_pos hcb] at hfb
    injection hfb with hb
    subst hb
    rw [hrb]
    simp [enrichInput, hcb]
  · exact ancestorFetchPaths_eq tx.vin

/-- Fixture: a coinbase input (all-zero ancestor id, flag set). -/
def coinbaseVin : Vin :=
  { txid := "0000000000000000000000000000000000000000000000000000000000000000",
    vout := 4294967295, is_coinbase := true }

/-- Fixture: a coinbase transaction paying one miner output. -/
def cbTx : BlockstreamTx :=
  { txid := hex64, fee := some 0, version := 1, locktime := 0, size := 120,
    weight := 480, vin := [coinbaseVin],
    vout := [{ value := 5000000000, scriptpubkey_address := some "miner",
               scriptpubkey_type := some "p2pkh" }],
    status := okStatus }

/-- Fixture: an upstream serving `cbTx` under `hex64`. -/
def cbUpstream : Upstream :=
  { getTx := fun s => if s = hex64 then some cbTx else none
    getHex := fun s => if s = hex64 then some "rawcb" else none
    getOutspends := fun s => if s = hex64 then some [{ spent := false }] else none }

/-- Fixture: the response body assembled for `cbTx` (the coinbase
input's `Promise.all` slot is `null`). -/
def cbBody : TxExplainerResponse :=
  buildResponse hex64 cbTx "rawcb" [{ spent := false }] [none]

/-- The coinbase rule instantiated on a concrete coinbase
transaction. -/
theorem coinbase_input_never_fetched_witness :
    (GET cbUpstream (some hex64) = ApiResponse.ok cbBody ∧
      cbTx.vin[0]? = some coinbaseVin ∧ coinbaseVin.is_coinbase = true) ∧
    (cbBody.inputs[0]? =
        some { txid := coinbaseVin.txid, vout := coinbaseVin.vout, value := 0,
               address := none, scriptType := none, isCoinbase := true } ∧
      ancestorFetchPaths cbTx.vin =
        (cbTx.vin.filter (fun v => !v.is_coinbase)).map (fun v => txPath v.txid)) :=
  ⟨⟨by decide, by decide, by decide⟩,
   coinbase_input_never_fetched cbUpstream (some hex64) cbBody cbTx 0 coinbaseVin
     (by decide) (by decide) (by decide) (by decide)⟩

/-- C9: when every non-coinbase ancestor fetch succeeds, the request
succeeds as a whole, and an input whose fetched ancestor lacks the
referenced output index resolves to zero value with absent address and
script type. -/
theorem out_of_range_reference_degrades (u : Upstream) (raw : Option String)
    (tx : BlockstreamTx) (rawHex : String) (outspends : List Outspend)
    (hv : isValidTxid (jsTrim (raw.getD "")) = true)
    (htx : u.getTx (jsTrim (raw.getD "")) = some tx)
    (hhex : u.getHex (jsTrim (raw.getD "")) = some rawHex)
    (hout : u.getOutspends (jsTrim (raw.getD "")) = some outspends)
    (hanc : ∀ vin ∈ tx.vin, vin.is_coinbase = false →
      (u.getTx vin.txid).isSome = true) :
    ∃ body, GET u raw = ApiResponse.ok body ∧
      ∀ (idx : Nat) (vin : Vin) (ptx : BlockstreamTx),
        tx.vin[idx]? = some vin → vin.is_coinbase = false →
        u.getTx vin.txid = some ptx → ptx.vout.length ≤ vin.vout →
        body.inputs[idx]? =
          some { txid := vin.txid, vout := vin.vout, value := 0,
                 address := none, scriptType := none, isCoinbase := false } := by
  have hres : ∃ prevTxs, resolvePrevTxs u tx.vin = some prevTxs := by
    unfold resolvePrevTxs
    apply mapM_option_isSome
    intro vin hvin
    cases hcb : vin.is_coinbase with
    | true => simp
    | false =>
      obtain ⟨t2, ht2⟩ := Option.isSome_iff_exists.mp (hanc vin hvin hcb)
      simp [ht2]
  obtain ⟨prevTxs, hprev⟩ := hres
  refine ⟨_, GET_eq_ok hv htx hhex hout hprev, ?_⟩
  intro idx vin ptx hvin hcb hptx hoor
  have hbi : (buildResponse (jsTrim (raw.getD "")) tx rawHex outspends
      prevTxs).inputs = enrichInputs tx.vin prevTxs := rfl
  rw [hbi, enrichInputs_getElem? hvin]
  unfold resolvePrevTxs at hprev
  obtain ⟨b, hfb, hrb⟩ := mapM_option_getElem? hprev hvin
  rw [if_neg (by rw [hcb]; exact Bool.false_ne_true)] at hfb
  rw [hptx] at hfb
  simp only [Option.map_some'] at hfb
  injection hfb with hb
  subst hb
  rw [hrb]
  have hnone : ptx.vout[vin.vout]? = none := List.getElem?_eq_none hoor
  simp [enrichInput, hnone, hcb]

/-- Fixture: an ancestor transaction with no outputs at all. -/
def oorAncestor : BlockstreamTx :=
  { txid := ancHex, fee := some 10, version := 2, locktime := 0, size := 85,
    weight := 340, vin := [], vout := [], status := okStatus }

/-- Fixture: a non-coinbase input referencing output 3 of the
output-less ancestor. -/
def oorVin : Vin := { txid := ancHex, vout := 3, is_coinbase := false }

/-- Fixture: a transaction whose only input has the out-of-range
reference. -/
def oorTx : BlockstreamTx :=
  { txid := hex64, fee := some 20, version := 2, locktime := 0, size := 150,
    weight := 600, vin := [oorVin], vout := [], status := okStatus }

/-- Fixture: an upstream serving `oorTx` and its ancestor. -/
def oorUpstream : Upstream :=
  { getTx := fun s =>
      if s = hex64 then some oorTx
      else if s = ancHex then some oorAncestor else none
    getHex := fun s => if s = hex64 then some "rawoor" else none
    getOutspends := fun s => if s = hex64 then some [] else none }

/-- The out-of-range rule instantiated on a concrete transaction whose
ancestor is fetched but has no output 3. -/
theorem out_of_range_reference_degrades_witness :
    ∃ body, GET oorUpstream (some hex64) = ApiResponse.ok body ∧
      ∀ (idx : Nat) (vin : Vin) (ptx : BlockstreamTx),
        oorTx.vin[idx]? = some vin → vin.is_coinbase = false →
        oorUpstream.getTx vin.txid = some ptx → ptx.vout.length ≤ vin.vout →
        body.inputs[idx]? =
          some { txid := vin.txid, vout := vin.vout, value := 0,
                 address := none, scriptType := none, isCoinbase := false } :=
  out_of_range_reference_degrades oorUpstream (some hex64) oorTx "rawoor" []
    (by decide) (by decide) (by decide) (by decide) (by decide)
